import Mathlib

/-
Verification development for the lightlab laboratory state store
(src/lightlab/laboratory/state.py).

The embedding models the LabState aggregate: typed entity collections
(hosts, benches, instruments, devices), the connections list, the
serialization and digest layer, the optimistic-concurrency save protocol
and the version migration chain.

Modelling conventions:
- Python exceptions become Except / Option error channels; functions that
  mutate in place become functions returning the new state.
- The supporting classes Host/LocalHost/Bench/Instrument/Device and the
  TypedList/Hashable base classes live in lightlab.laboratory modules that
  are not part of the provided sources; where their behaviour decides a
  definition it is modelled from the spec and marked so in the doc comment.
- The LocalHost subclass is modelled as a boolean is-local flag on Host,
  per the spec data model (optional is-local-flag).
- SHA-256 is modelled as a deterministic function from the encoded string
  to a natural number below 2^256; no proof relies on collision behaviour,
  only on determinism.
- logger.warning / logger.info / logger.error calls are modelled as a list
  of LogEvent values returned next to the new state where a claim needs
  them, and omitted otherwise.
-/

namespace Lightlab

/-- A compute node; the LocalHost subclass is modelled as the `isLocal`
flag (spec data model: at most one Host may be marked local). -/
structure Host where
  name : String
  isLocal : Bool := false
  mac_address : String := ""
  hostname : String := ""
  os : String := ""
deriving DecidableEq

/-- A named physical grouping; post-v2 a bench has no embedded children. -/
structure Bench where
  name : String
deriving DecidableEq

/-- An actively controlled entity with named ports, referencing at most one
bench and one host. -/
structure Instrument where
  name : String
  ports : List String := []
  bench : Option Bench := none
  host : Option Host := none
deriving DecidableEq

/-- A passive entity under test with named ports and at most one bench. -/
structure Device where
  name : String
  ports : List String := []
  bench : Option Bench := none
deriving DecidableEq

/-- A connection endpoint entity: instruments and devices can both be keys
of a connection dictionary. -/
inductive CEnt where
  | instr (i : Instrument)
  | dev (d : Device)
deriving DecidableEq

/-- Declared port set of a connection endpoint (`k1.ports` in the source). -/
def CEnt.ports : CEnt → List String
  | .instr i => i.ports
  | .dev d => d.ports

/-- Display name of a connection endpoint. -/
def CEnt.name : CEnt → String
  | .instr i => i.name
  | .dev d => d.name

/-- A connection is a Python dict mapping entities to ports
(`for k1, v1 in connection.items()`); modelled as an association list of
(entity, port) bindings. -/
abbrev Conn := List (CEnt × String)

/-- Events emitted through the logger, where a claim observes them. -/
inductive LogEvent where
  | warnDuplicateLocalhost
  | warnLocalhostClash (existing incoming : String)
  | infoOverwriting (hostName : String)
  | warnLocalhostMissing
  | warnNewBench (benchName : String)
  | warnNewHost (hostName : String)
deriving DecidableEq

/-- The in-memory aggregate root (class LabState). The four entity
collections, the connections list, the instance schema version
(`__version__`, class default 2) and the recorded digest (`__sha256__`,
None until a load or save records one). The `filename` bookkeeping field
plays no role in any claim and is kept out of the model; paths are passed
explicitly. -/
structure LabState where
  hosts : List Host := []
  benches : List Bench := []
  connections : List Conn := []
  devices : List Device := []
  instruments : List Instrument := []
  version : Nat := 2
  sha256 : Option Nat := none
deriving DecidableEq

/-- The current code schema version (`LabState.__version__ = 2`). -/
def currentVersion : Nat := 2

/-- The digest-relevant content of a persisted document: the flattened
entity graph plus `__version__` (the source hashes json_state after adding
`__version__` and before adding `__sha256__`, `__user__`, `__datetime__`). -/
structure Core where
  hosts : List Host
  benches : List Bench
  connections : List Conn
  devices : List Device
  instruments : List Instrument
  version : Nat
deriving DecidableEq

/-- The content of an in-memory state as it is flattened into a document
(jsonpickle Pickler.flatten on the collections, plus `__version__`). -/
def LabState.core (s : LabState) : Core :=
  { hosts := s.hosts
    benches := s.benches
    connections := s.connections
    devices := s.devices
    instruments := s.instruments
    version := s.version }

/-- A persisted document: the core content plus the three metadata keys
`__sha256__`, `__user__`, `__datetime__` added after digesting. -/
structure Document where
  core : Core
  sha256 : Nat
  user : String
  datetime : String
deriving DecidableEq

/-- Ambient values resolved from the runtime environment when saving
(getpass.getuser(), datetime.now(), timestamp_string()). -/
structure Env where
  user : String := "user"
  datetime : String := "now"
  timestamp : String := "ts"

/-! ### Serialization and digest layer

The source serializes with jsonpickle using sort_keys=True and digests
the encoded text with hashlib SHA-256 (hash_sha256). The JSON text is
modelled as a deterministic numeric code of the document; map keys are
canonicalized by sorting, per the sort_keys=True encoder option. -/

/-- Deterministic numeric code of a string (the character stream, one
base-1114113 digit per character). -/
def strCode (s : String) : Nat :=
  s.data.foldr (fun c acc => acc * 1114113 + (c.toNat + 1)) 0

/-- Deterministic numeric code of a token stream (rolling combination,
the model of concatenating encoded fragments into the JSON text). -/
def natsCode (l : List Nat) : Nat :=
  l.foldl (fun acc n => acc * 1000003 + n + 1) 1

/-- Numeric code of an optional fragment (None vs the fragment). -/
def optCode (f : α → Nat) : Option α → Nat
  | none => 0
  | some x => f x + 1

/-- Encoded form of a Host record. -/
def encHost (h : Host) : Nat :=
  natsCode [0, strCode h.name, cond h.isLocal 1 0, strCode h.mac_address,
            strCode h.hostname, strCode h.os]

/-- Encoded form of a Bench record. -/
def encBench (b : Bench) : Nat :=
  natsCode [1, strCode b.name]

/-- Encoded form of an Instrument record (bench and host cross-references
are serialized in place as their encoded records). -/
def encInstrument (i : Instrument) : Nat :=
  natsCode [2, strCode i.name, natsCode (i.ports.map strCode),
            optCode encBench i.bench, optCode encHost i.host]

/-- Encoded form of a Device record. -/
def encDevice (d : Device) : Nat :=
  natsCode [3, strCode d.name, natsCode (d.ports.map strCode),
            optCode encBench d.bench]

/-- Encoded form of a connection endpoint. -/
def encCEnt : CEnt → Nat
  | .instr i => natsCode [4, encInstrument i]
  | .dev d => natsCode [5, encDevice d]

/-- Encoded form of one connection (its (entity, port) bindings in order). -/
def encConn (c : Conn) : Nat :=
  natsCode (c.map fun kv => natsCode [encCEnt kv.1, strCode kv.2])

/-- Modelled from the spec: the canonical serialized form of a uniquely
keyed entity collection. The TypedList container class and the jsonpickle
flattening of it are not part of the provided sources; the spec prescribes
name-keyed collections whose canonicalization sorts map keys before
digesting (sort_keys=True), so a collection is encoded as the sorted list
of its entries' codes. -/
def canonColl (codes : List Nat) : Nat :=
  natsCode (List.insertionSort (· ≤ ·) codes)

/-- Encoded form of the digest-relevant document content: the four entity
collections in canonical (sorted-key) form, the connections list in list
order, and the schema version. -/
def encodeCore (c : Core) : Nat :=
  natsCode [canonColl (c.benches.map encBench),
            natsCode (c.connections.map encConn),
            canonColl (c.devices.map encDevice),
            canonColl (c.hosts.map encHost),
            canonColl (c.instruments.map encInstrument),
            c.version]

/-- Model of hash_sha256: a deterministic 256-bit digest of the encoded
document. Proofs rely only on determinism, never on collision behaviour. -/
def hash_sha256 (doc : Nat) : Nat :=
  (doc * 2654435761 + 40503) % 2 ^ 256

/-- The digest the serialization layer stamps into a document built from
state s (`__toJSON`: hash over the flattened content plus `__version__`). -/
def stateDigest (s : LabState) : Nat :=
  hash_sha256 (encodeCore s.core)

/-- `LabState.__toJSON`: flatten the state, add `__version__`, digest the
result, then add `__sha256__`, `__user__` and `__datetime__`. -/
def toJSON (s : LabState) (env : Env) : Document :=
  { core := s.core
    sha256 := stateDigest s
    user := env.user
    datetime := env.datetime }

/-! ### Filesystem model

The on-disk file holds json.encode of the document; since the external
JSON backend's decode inverts encode, the store is modelled as a mapping
from paths to decoded documents, and loadState re-encodes the stored
content to recompute its digest, exactly as the source re-encodes the
parsed json_state. -/

/-- The file store: an association of paths to persisted documents. -/
abbrev FS := List (String × Document)

/-- Read the document at a path, if the file exists. -/
def lookupFS (fs : FS) (p : String) : Option Document :=
  (fs.find? fun e => e.1 == p).map (·.2)

/-- Overwrite or create the file at a path. -/
def writeFS (fs : FS) (p : String) (d : Document) : FS :=
  if fs.any (fun e => e.1 == p) then
    fs.map fun e => if e.1 == p then (p, d) else e
  else
    fs ++ [(p, d)]

/-! ### Load protocol and migration engine -/

/-- Errors raised out of loadState (and propagated out of saveState):
missing file (FileNotFoundError from open), corrupted digest
(RuntimeError: Labstate is corrupted), stored version newer than the
software (RuntimeError: update package lightlab), and a failed
`assert old_lab.__version__ == from_version` inside a patch, which is an
AssertionError and is not caught by the except NotImplementedError
handler. -/
inductive LoadError where
  | fileNotFound (path : String)
  | integrityError (stored computed : Nat)
  | versionTooNew
  | assertionFailed
deriving DecidableEq

/-- Errors raised inside patch_labstate. -/
inductive PatchError where
  | notImplemented
  | assertionFailed
deriving DecidableEq

/-- The jsonpickle restore of a document back into a LabState, followed by
the loadState field fix-ups (restored_object.__sha256__ = sha256,
restored_object.__version__ = version). -/
def restoreDoc (doc : Document) : LabState :=
  { hosts := doc.core.hosts
    benches := doc.core.benches
    connections := doc.core.connections
    devices := doc.core.devices
    instruments := doc.core.instruments
    version := doc.core.version
    sha256 := some doc.sha256 }

/-- Modelled from the spec: the body of the version-1 patch
(patch_labstate, from_version == 1). Version-1 documents nest instrument
and device lists inside bench and host records, a shape the version-2
document model cannot represent, so the flattening loops are modelled as
keeping the already-flat collections; the rest follows the source: a fresh
current-version LabState is built (its recorded digest is reset), the
synthetic local host cassander is upserted, and the connections list is
carried over. -/
def migrate_v1 (old : LabState) : LabState :=
  let cassander : Host := { name := "cassander", isLocal := true }
  let hosts :=
    if old.hosts.any (fun h => h.name == cassander.name) then
      old.hosts.map fun h => if h.name == cassander.name then cassander else h
    else
      old.hosts ++ [cassander]
  { hosts := hosts
    benches := old.benches
    connections := old.connections
    devices := old.devices
    instruments := old.instruments
    version := 2
    sha256 := none }

/-- patch_labstate: the single registered patch migrates version 1 to the
current version (asserting the state is at version 1 first); every other
step raises NotImplementedError (Patch not found). -/
def patch_labstate (fromVersion : Nat) (old : LabState) : Except PatchError LabState :=
  if fromVersion = 1 then
    if old.version = 1 then .ok (migrate_v1 old) else .error .assertionFailed
  else
    .error .notImplemented

/-- The migration loop of loadState:
`for i in range(version, cls.__version__): restored = patch_labstate(i, restored)`
wrapped in try/except NotImplementedError. A NotImplementedError from a
missing patch is caught and logged (logger.exception) and the object as
migrated so far is returned; an AssertionError propagates. -/
def migrateLoop : List Nat → LabState → Except LoadError LabState
  | [], lab => .ok lab
  | i :: rest, lab =>
    match patch_labstate i lab with
    | .ok lab2 => migrateLoop rest lab2
    | .error .notImplemented => .ok lab
    | .error .assertionFailed => .error .assertionFailed

/-- LabState.loadState: read and parse the file, pop `__user__`,
`__datetime__` and `__sha256__`, recompute the digest over the remaining
content (which still carries `__version__`) when validateHash is set and
fail on mismatch, refuse a stored version newer than the software, restore
the object and run the migration loop over
range(version, cls.`__version__`). -/
def loadState (fs : FS) (path : String) (validateHash : Bool) :
    Except LoadError LabState :=
  match lookupFS fs path with
  | none => .error (.fileNotFound path)
  | some doc =>
    let computed := hash_sha256 (encodeCore doc.core)
    if validateHash ∧ doc.sha256 ≠ computed then
      .error (.integrityError doc.sha256 computed)
    else if doc.core.version > currentVersion then
      .error .versionTooNew
    else
      migrateLoop (List.range' doc.core.version (currentVersion - doc.core.version))
        (restoreDoc doc)

/-! ### Optimistic-concurrency save protocol -/

/-- Outcome of saveState (the source signals these through debug/error
logs and its return): first save of a missing file, no-op on equal states,
a completed write, or a refused write when the on-disk digest no longer
matches the recorded one (logger.error naming the path). -/
inductive SaveOutcome where
  | firstSave
  | noop
  | saved
  | conflict (path : String)
deriving DecidableEq

/-- Modelled from the spec: Hashable equality between two states ("compare
in-memory state to the loaded state by full equality"). The Hashable base
class is not part of the provided sources; equality is modelled as
equality of the digest-relevant content, metadata excluded. -/
def labEq (a b : LabState) : Bool :=
  a.core == b.core

/-- LabState._saveState: optionally copy the existing file to a sibling
backup path suffixed with a timestamp, then overwrite the target with the
freshly serialized document and record the new digest on the in-memory
state (self.__sha256__ = json_state["__sha256__"]). -/
def _saveState (s : LabState) (fs : FS) (fname : String) (saveBackup : Bool)
    (env : Env) : FS × LabState :=
  let fs1 :=
    match saveBackup, lookupFS fs fname with
    | true, some old => writeFS fs (fname ++ "_" ++ env.timestamp ++ ".json") old
    | _, _ => fs
  let doc := toJSON s env
  (writeFS fs1 fname doc, { s with sha256 := some doc.sha256 })

/-- LabState.saveState: reload the on-disk file first (FileNotFoundError
means a first save, without backup; any other load failure propagates).
Backfill self.__sha256__ from a fresh serialization if it was never
recorded. Equal states are a no-op. Otherwise write only when the loaded
state's recorded digest equals this state's recorded digest; on mismatch
log an error naming the path and abort without touching the file. -/
def saveState (s : LabState) (fs : FS) (fname : String) (saveBackup : Bool)
    (env : Env) : Except LoadError (FS × LabState × SaveOutcome) :=
  match loadState fs fname true with
  | .error (.fileNotFound _) =>
    let r := _saveState s fs fname false env
    .ok (r.1, r.2, .firstSave)
  | .error e => .error e
  | .ok loaded =>
    let s2 := if s.sha256 = none then { s with sha256 := some (stateDigest s) } else s
    if labEq loaded s2 then
      .ok (fs, s2, .noop)
    else if loaded.sha256 == s2.sha256 then
      let r := _saveState s2 fs fname saveBackup env
      .ok (r.1, r.2, .saved)
    else
      .ok (fs, s2, .conflict fname)

/-! ### Entity registry operations -/

/-- Modelled from the spec: TypedList item assignment by name
(`self.hosts[new_host.name] = new_host`), the insert-or-overwrite-by-name
upsert. The TypedList container class is not part of the provided
sources. -/
def setHost (hs : List Host) (nh : Host) : List Host :=
  if hs.any (fun h => h.name == nh.name) then
    hs.map fun h => if h.name == nh.name then nh else h
  else
    hs ++ [nh]

/-- One iteration of the scan at the top of updateHost: remember the name
of the (last seen) LocalHost and warn on a duplicate localhost. -/
def scanStep (acc : Option String × List LogEvent) (h : Host) :
    Option String × List LogEvent :=
  if h.isLocal then
    (some h.name,
     if acc.1.isSome then acc.2 ++ [.warnDuplicateLocalhost] else acc.2)
  else acc

/-- The scan at the top of updateHost: walk the existing hosts recording
the localhost name. Returns the localhost name and the emitted logs. -/
def scanLocal (hs : List Host) : Option String × List LogEvent :=
  hs.foldl scanStep (none, [])

/-- One iteration of the updateHost loop over the incoming hosts: an
incoming LocalHost clashing with a differently named existing localhost is
skipped with a warning; otherwise the host is upserted by name, logging an
overwrite of a known name and forgetting the localhost name when the
upsert replaces the localhost with a non-local host. -/
def hostStep (oldNames : List String)
    (acc : List Host × Option String × List LogEvent) (nh : Host) :
    List Host × Option String × List LogEvent :=
  let hosts := acc.1
  let locName := acc.2.1
  let logs := acc.2.2
  match locName with
  | some ln =>
    if nh.isLocal && nh.name != ln then
      (hosts, some ln, logs ++ [.warnLocalhostClash ln nh.name])
    else if nh.name ∈ oldNames then
      let locName2 := if nh.name = ln ∧ ¬nh.isLocal then none else some ln
      (setHost hosts nh, locName2, logs ++ [.infoOverwriting nh.name])
    else
      (setHost hosts nh, some ln, logs)
  | none =>
    if nh.name ∈ oldNames then
      (setHost hosts nh, none, logs ++ [.infoOverwriting nh.name])
    else
      (setHost hosts nh, none, logs)

/-- LabState.updateHost: scan for the existing localhost, process each
incoming host through the loop, and warn at the end when no localhost is
present. -/
def updateHost (s : LabState) (newHosts : List Host) : LabState × List LogEvent :=
  let scan := scanLocal s.hosts
  let oldNames := s.hosts.map (·.name)
  let r := newHosts.foldl (hostStep oldNames) (s.hosts, scan.1, scan.2)
  let logs := if r.2.1 = none then r.2.2 ++ [.warnLocalhostMissing] else r.2.2
  ({ s with hosts := r.1 }, logs)

/-- LabState.deleteInstrumentFromName: filter the instruments matching the
name, assert exactly one match (an AssertionError aborts the call leaving
the collection untouched), then delete that entry by name. The error
channel carries the failed assertion. -/
def deleteInstrumentFromName (s : LabState) (name : String) :
    LabState × Option String :=
  let matching := s.instruments.filter fun x => x.name == name
  if matching.length = 1 then
    ({ s with instruments := s.instruments.filter fun x => x.name != name }, none)
  else
    (s, some "AssertionError")

/-- LabState.insertInstrument: append to the instruments collection first
(modelled from the spec: TypedList.append fails with DuplicateNameError
when the name already exists — the TypedList class is not part of the
provided sources), then auto-register the referenced bench and host when
they are not yet present, warning about each. On the duplicate-name error
the state is returned untouched. -/
def insertInstrument (s : LabState) (ins : Instrument) :
    LabState × Option String × List LogEvent :=
  if s.instruments.any (fun x => x.name == ins.name) then
    (s, some "DuplicateNameError", [])
  else
    let s1 := { s with instruments := s.instruments ++ [ins] }
    let r2 :=
      match ins.bench with
      | some b =>
        if b ∈ s1.benches then (s1, ([] : List LogEvent))
        else ({ s1 with benches := s1.benches ++ [b] }, [.warnNewBench b.name])
      | none => (s1, [])
    let s2 := r2.1
    match ins.host with
    | some h =>
      if h ∈ s2.hosts then (s2, none, r2.2)
      else ({ s2 with hosts := s2.hosts ++ [h] }, none, r2.2 ++ [.warnNewHost h.name])
    | none => (s2, none, r2.2)

/-! ### Connections -/

/-- The validation pass of updateConnections: the first (entity, port)
binding whose port is not among the entity's declared ports
(`if v1 not in k1.ports`), if any. -/
def firstInvalid (batch : List Conn) : Option (CEnt × String) :=
  batch.findSome? fun c => c.find? fun kv => !decide (kv.2 ∈ kv.1.ports)

/-- Drop every connection containing the given (entity, port) binding
(check_if_port_is_not_connected applied through the list rebuild). -/
def removeForPair (cur : List Conn) (kv : CEnt × String) : List Conn :=
  cur.filter fun x => !decide (kv ∈ x)

/-- The conflict-removal pass: for every binding of every incoming
connection, drop the existing connections containing that binding. -/
def removeConflicts (cur : List Conn) (batch : List Conn) : List Conn :=
  batch.foldl (fun acc c => c.foldl removeForPair acc) cur

/-- Python dict equality between two connections: the same set of
(entity, port) bindings. -/
def connEq (a b : Conn) : Bool :=
  decide ((∀ kv ∈ a, kv ∈ b) ∧ ∀ kv ∈ b, kv ∈ a)

/-- The append pass: each incoming connection is appended unless an equal
connection is already present (`if connection not in self.connections`). -/
def addNew (cur : List Conn) : List Conn → List Conn
  | [] => cur
  | c :: rest =>
    if cur.any (fun x => connEq c x) then addNew cur rest
    else addNew (cur ++ [c]) rest

/-- Result of updateConnections: the state (untouched when the validation
raised) and the offending binding of the RuntimeError, if any. -/
structure ConnResult where
  state : LabState
  error : Option (CEnt × String)
deriving DecidableEq

/-- LabState.updateConnections: validate every binding of every incoming
connection first, raising on the first invalid port before any mutation;
then remove conflicting existing connections and append the new ones. -/
def updateConnections (s : LabState) (batch : List Conn) : ConnResult :=
  match firstInvalid batch with
  | some kv => { state := s, error := some kv }
  | none =>
    { state := { s with connections := addNew (removeConflicts s.connections batch) batch }
      error := none }

/-- The number of connections in a list that contain a given
(entity, port) binding. -/
def pairCount (kv : CEnt × String) (cs : List Conn) : Nat :=
  cs.countP fun c => decide (kv ∈ c)

/-! ### Concrete fixtures used by counterexamples and witnesses -/

/-- A sample instrument with one declared port. -/
def instrA : Instrument := { name := "A", ports := ["p1"] }

/-- A sample device with one declared port. -/
def devB : Device := { name := "B", ports := ["p2"] }

/-- A second sample device. -/
def devC : Device := { name := "C", ports := ["p3"] }

/-- The instrument endpoint of the sample connections. -/
def entA : CEnt := .instr instrA

/-- Connection binding (A, p1) to (B, p2). -/
def connAB : Conn := [(entA, "p1"), (.dev devB, "p2")]

/-- Connection binding (A, p1) to (C, p3): shares the (A, p1) binding
with connAB. -/
def connAC : Conn := [(entA, "p1"), (.dev devC, "p3")]

/-- A freshly constructed, empty lab state. -/
def emptyLab : LabState := {}

/-- Empty document content stamped with schema version 0. -/
def coreV0 : Core :=
  { hosts := [], benches := [], connections := [], devices := [],
    instruments := [], version := 0 }

/-- A hash-valid persisted document at schema version 0: both migration
steps 0 -> 1 -> 2 would be needed, and no patch is registered for step 0. -/
def docV0 : Document :=
  { core := coreV0, sha256 := hash_sha256 (encodeCore coreV0),
    user := "u", datetime := "d" }

/-- A file store holding the version-0 document. -/
def fsV0 : FS := [("labstate.json", docV0)]

/-- A sample populated lab state at the current version. -/
def labW : LabState :=
  { hosts := [{ name := "h1", isLocal := true }],
    instruments := [instrA],
    connections := [connAB] }

/-- A hash-valid on-disk document holding labW's content. -/
def docW : Document :=
  { core := labW.core, sha256 := hash_sha256 (encodeCore labW.core),
    user := "u", datetime := "d" }

/-- An in-memory state with different content than docW whose recorded
digest differs from docW's stored digest. -/
def labConf : LabState :=
  { benches := [{ name := "b" }], sha256 := some (docW.sha256 + 1) }

/-- A document whose stored digest does not match its content. -/
def docBad : Document :=
  { core := labW.core, sha256 := hash_sha256 (encodeCore labW.core) + 1,
    user := "u", datetime := "d" }

/-- Two hosts used to exercise insertion-order independence. -/
def hostA : Host := { name := "ha" }

/-- Second host of the insertion-order pair. -/
def hostB : Host := { name := "hb" }

/-- The same logical state as lab5b, hosts inserted as A then B. -/
def lab5a : LabState := { hosts := [hostA, hostB] }

/-- The same logical state as lab5a, hosts inserted as B then A. -/
def lab5b : LabState := { hosts := [hostB, hostA] }

/-- A state whose only host is the localhost. -/
def lab8 : LabState := { hosts := [{ name := "loc", isLocal := true }] }

/-- An incoming, differently named local host. -/
def host8 : Host := { name := "other", isLocal := true }

/-! ### Theorems -/

/-- Claim C2: for every persisted document whose stored digest does not
equal the digest recomputed over the document with the metadata fields
(`__sha256__`, `__user__`, `__datetime__`) removed, loadState with
validateHash fails with the integrity error and returns no LabState. -/
theorem C2_integrity_mismatch_fails (fs : FS) (path : String) (doc : Document)
    (hl : lookupFS fs path = some doc)
    (hd : doc.sha256 ≠ hash_sha256 (encodeCore doc.core)) :
    loadState fs path true =
      .error (.integrityError doc.sha256 (hash_sha256 (encodeCore doc.core))) := by
  simp only [loadState, hl]
  rw [if_pos ⟨trivial, hd⟩]

/-- Witness for C2: a concrete document whose stored digest is off by one
fails the verifying load with the integrity error. -/
theorem C2_witness :
    loadState [("p", docBad)] "p" true =
      .error (.integrityError docBad.sha256 (hash_sha256 (encodeCore docBad.core))) :=
  C2_integrity_mismatch_fails [("p", docBad)] "p" docBad (by decide)
    (by decide)

/-- Claim C6: a batch handed to updateConnections in which some connection
binds a port not in the bound entity's declared port set fails with the
invalid-port error before any mutation: the error channel is set and the
state, connections included, is exactly the input state. -/
theorem C6_invalid_port_aborts (s : LabState) (batch : List Conn)
    (h : ∃ c ∈ batch, ∃ kv ∈ c, kv.2 ∉ kv.1.ports) :
    (updateConnections s batch).error.isSome = true ∧
    (updateConnections s batch).state = s := by
  obtain ⟨c, hc, kv, hkv, hport⟩ := h
  cases hfi : firstInvalid batch with
  | none =>
    exfalso
    rw [firstInvalid, List.findSome?_eq_none_iff] at hfi
    have h1 := hfi c hc
    rw [List.find?_eq_none] at h1
    have h2 := h1 kv hkv
    simp at h2
    exact hport h2
  | some kv2 =>
    constructor <;> simp [updateConnections, hfi]

/-- Witness for C6: binding the undeclared port nope on instrument A
aborts the batch and leaves the empty state untouched. -/
theorem C6_witness :
    (updateConnections emptyLab [[(entA, "nope")]]).error.isSome = true ∧
    (updateConnections emptyLab [[(entA, "nope")]]).state = emptyLab :=
  C6_invalid_port_aborts emptyLab [[(entA, "nope")]]
    ⟨[(entA, "nope")], by decide, (entA, "nope"), by decide, by decide⟩

/-- Claim C9: delete-by-name fails (AssertionError, the spec's
NotFoundError) and leaves the instruments collection unchanged unless
exactly one instrument carries the name, in which case that instrument is
removed and no error is raised. -/
theorem C9_delete_exact_match (s : LabState) (name : String) :
    ((s.instruments.filter fun x => x.name == name).length ≠ 1 →
      deleteInstrumentFromName s name = (s, some "AssertionError")) ∧
    ((s.instruments.filter fun x => x.name == name).length = 1 →
      (deleteInstrumentFromName s name).2 = none ∧
      (deleteInstrumentFromName s name).1.instruments =
        s.instruments.filter fun x => x.name != name) := by
  constructor <;> intro h <;> simp [deleteInstrumentFromName, h]

/-- Witness for C9: deleting from an empty registry (zero matches) fails
and changes nothing. -/
theorem C9_witness :
    deleteInstrumentFromName emptyLab "X" = (emptyLab, some "AssertionError") :=
  (C9_delete_exact_match emptyLab "X").1 (by decide)

/-- Claim C10: inserting an instrument whose name is already registered
fails on the duplicate-name append before any auto-registration: the
returned state (instruments, benches and hosts collections alike) is
exactly the input state and no bench or host warning is logged. -/
theorem C10_duplicate_insert_unchanged (s : LabState) (ins : Instrument)
    (h : ∃ j ∈ s.instruments, j.name = ins.name) :
    insertInstrument s ins = (s, some "DuplicateNameError", []) := by
  obtain ⟨j, hj, hn⟩ := h
  have ha : s.instruments.any (fun x => x.name == ins.name) = true :=
    List.any_eq_true.mpr ⟨j, hj, by simp [hn]⟩
  simp [insertInstrument, ha]

/-- Witness for C10: re-inserting instrument A into a registry already
holding it is rejected with every collection unchanged. -/
theorem C10_witness :
    insertInstrument { instruments := [instrA] } instrA =
      ({ instruments := [instrA] }, some "DuplicateNameError", []) :=
  C10_duplicate_insert_unchanged { instruments := [instrA] } instrA
    ⟨instrA, by decide, rfl⟩

/-- Claim C1: when the recorded digest of the in-memory state differs from
the digest stored in the (loadable, current-version) on-disk document and
the contents differ from the loaded state, saveState reports the conflict
naming the path, writes nothing (the store is returned unchanged) and
leaves the in-memory state as it was. -/
theorem C1_conflict_aborts_save (s : LabState) (fs : FS) (path : String)
    (doc : Document) (b : Bool) (env : Env) (h : Nat)
    (hl : lookupFS fs path = some doc)
    (hh : doc.sha256 = hash_sha256 (encodeCore doc.core))
    (hv : doc.core.version = 2)
    (hs : s.sha256 = some h)
    (hne : h ≠ doc.sha256)
    (hcontent : doc.core ≠ s.core) :
    saveState s fs path b env = .ok (fs, s, .conflict path) := by
  have hload : loadState fs path true = .ok (restoreDoc doc) := by
    simp only [loadState, hl]
    rw [if_neg (by simp [hh]), if_neg (by rw [hv]; simp [currentVersion]), hv]
    rfl
  have hcore : (restoreDoc doc).core = doc.core := rfl
  have heq : labEq (restoreDoc doc) s = false := by
    rw [labEq, hcore]
    exact beq_eq_false_iff_ne.mpr hcontent
  have hsha : ((restoreDoc doc).sha256 == s.sha256) = false := by
    rw [hs]
    refine beq_eq_false_iff_ne.mpr fun hc => ?_
    exact hne (Option.some.inj hc).symm
  simp only [saveState, hload, hs]
  simp [heq, hsha]

/-- Witness for C1: a concrete in-memory state whose recorded digest is
off by one from the stored document digest, with different content, gets a
conflict naming the path with the store and state unchanged. -/
theorem C1_witness :
    saveState labConf [("p", docW)] "p" true {} =
      .ok ([("p", docW)], labConf, .conflict "p") :=
  C1_conflict_aborts_save labConf [("p", docW)] "p" docW true {} (docW.sha256 + 1)
    (by decide) rfl rfl rfl (by decide) (by decide)

/-- Counterexample to claim C3 as stated: a hash-valid version-0 document
needs migration steps 0 and 1, and no patch is registered for step 0; yet
the verifying load succeeds (no MigrationNotFoundError is surfaced) and
hands back a LabState still at version 0, not at the current version 2. -/
theorem C3_counterexample :
    (loadState fsV0 "labstate.json" true).toOption.map LabState.version = some 0 ∧
    currentVersion = 2 := by
  constructor
  · rfl
  · rfl

/-- Claim C3 as amended: when the ascending migration chain hits a step
with no registered patch (any document stored at version 0, since only the
1 -> 2 patch exists), the NotImplementedError is caught and logged inside
loadState, which then succeeds and returns the restored state still at its
stored, older version; the missing step is not fatal and the
partially-migrated state is exposed. -/
theorem C3_missing_patch_caught (fs : FS) (path : String) (doc : Document)
    (hl : lookupFS fs path = some doc)
    (hh : doc.sha256 = hash_sha256 (encodeCore doc.core))
    (hv : doc.core.version = 0) :
    loadState fs path true = .ok (restoreDoc doc) ∧
    (restoreDoc doc).version = 0 := by
  constructor
  · simp only [loadState, hl]
    rw [if_neg (by simp [hh]), if_neg (by rw [hv]; simp [currentVersion]), hv]
    rfl
  · show doc.core.version = 0
    exact hv

/-- Witness for the amended C3: the concrete version-0 store loads
successfully, returning the version-0 state unmigrated. -/
theorem C3_witness :
    loadState fsV0 "labstate.json" true = .ok (restoreDoc docV0) ∧
    (restoreDoc docV0).version = 0 :=
  C3_missing_patch_caught fsV0 "labstate.json" docV0 (by decide) rfl rfl

/-- Claim C4: saving a constructed (current-version) state to a path and
loading that path back yields a state whose hosts, benches, instruments
and devices collections and connections list all equal the original's. -/
theorem C4_roundtrip (s : LabState) (path : String) (b : Bool) (env : Env)
    (hv : s.version = 2) :
    saveState s [] path b env =
      .ok (writeFS [] path (toJSON s env),
           { s with sha256 := some (stateDigest s) }, .firstSave) ∧
    loadState (writeFS [] path (toJSON s env)) path true =
      .ok (restoreDoc (toJSON s env)) ∧
    (restoreDoc (toJSON s env)).hosts = s.hosts ∧
    (restoreDoc (toJSON s env)).benches = s.benches ∧
    (restoreDoc (toJSON s env)).instruments = s.instruments ∧
    (restoreDoc (toJSON s env)).devices = s.devices ∧
    (restoreDoc (toJSON s env)).connections = s.connections := by
  refine ⟨rfl, ?_, rfl, rfl, rfl, rfl, rfl⟩
  have hlook : lookupFS (writeFS [] path (toJSON s env)) path = some (toJSON s env) := by
    simp [lookupFS, writeFS, List.find?]
  simp only [loadState, hlook]
  rw [if_neg (by simp [toJSON, stateDigest])]
  rw [if_neg ?_]
  · show migrateLoop (List.range' (toJSON s env).core.version
        (currentVersion - (toJSON s env).core.version)) _ = _
    show migrateLoop (List.range' s.version (currentVersion - s.version)) _ = _
    rw [hv]
    rfl
  · show ¬(toJSON s env).core.version > currentVersion
    show ¬s.version > currentVersion
    rw [hv]
    simp [currentVersion]

/-- Witness for C4: the concrete populated state labW round-trips through
a save and verifying load with all collections and connections equal. -/
theorem C4_witness :
    saveState labW [] "q" true {} =
      .ok (writeFS [] "q" (toJSON labW {}),
           { labW with sha256 := some (stateDigest labW) }, .firstSave) ∧
    loadState (writeFS [] "q" (toJSON labW {})) "q" true =
      .ok (restoreDoc (toJSON labW {})) ∧
    (restoreDoc (toJSON labW {})).hosts = labW.hosts ∧
    (restoreDoc (toJSON labW {})).benches = labW.benches ∧
    (restoreDoc (toJSON labW {})).instruments = labW.instruments ∧
    (restoreDoc (toJSON labW {})).devices = labW.devices ∧
    (restoreDoc (toJSON labW {})).connections = labW.connections :=
  C4_roundtrip labW "q" true {} rfl

/-- Sorting a list of codes is invariant under permutation: both sorted
lists are permutations of each other and sorted under an antisymmetric
total order, hence equal. -/
theorem sortNats_perm_eq {l1 l2 : List Nat} (h : l1.Perm l2) :
    List.insertionSort (· ≤ ·) l1 = List.insertionSort (· ≤ ·) l2 :=
  List.eq_of_perm_of_sorted
    ((List.perm_insertionSort _ l1).trans (h.trans (List.perm_insertionSort _ l2).symm))
    (List.sorted_insertionSort _ l1)
    (List.sorted_insertionSort _ l2)

/-- The canonical collection encoding is invariant under permutation of
the collection entries. -/
theorem canonColl_perm {l1 l2 : List Nat} (h : l1.Perm l2) :
    canonColl l1 = canonColl l2 := by
  rw [canonColl, canonColl, sortNats_perm_eq h]

/-- Claim C5: two states holding the same logical entities (the entity
collections are permutations of each other, i.e. insertion order and map
key order are immaterial) and the same connections list serialize to the
same content digest; with trivial permutations this includes serializing
the same state twice. -/
theorem C5_digest_stable (s1 s2 : LabState)
    (hh : s1.hosts.Perm s2.hosts)
    (hb : s1.benches.Perm s2.benches)
    (hi : s1.instruments.Perm s2.instruments)
    (hd : s1.devices.Perm s2.devices)
    (hc : s1.connections = s2.connections)
    (hv : s1.version = s2.version) :
    stateDigest s1 = stateDigest s2 := by
  simp only [stateDigest, encodeCore, LabState.core]
  rw [canonColl_perm (hb.map encBench), canonColl_perm (hd.map encDevice),
      canonColl_perm (hh.map encHost), canonColl_perm (hi.map encInstrument),
      hc, hv]

/-- Witness for C5: inserting hosts ha and hb in either order yields the
same digest. -/
theorem C5_witness : stateDigest lab5a = stateDigest lab5b :=
  C5_digest_stable lab5a lab5b (List.Perm.swap hostB hostA [])
    (List.Perm.refl _) (List.Perm.refl _) (List.Perm.refl _) rfl rfl

/-- Counterexample to claim C7 as stated: a successful updateConnections
call whose batch holds two distinct connections sharing the (A, p1)
binding leaves that binding present in two connections at once — the
conflict-removal pass only filters pre-existing connections, never the
batch itself. -/
theorem C7_counterexample :
    (updateConnections emptyLab [connAB, connAC]).error = none ∧
    (entA, "p1") ∈ connAB ∧ (entA, "p1") ∈ connAC ∧ connAB ≠ connAC ∧
    pairCount (entA, "p1")
      (updateConnections emptyLab [connAB, connAC]).state.connections = 2 := by
  refine ⟨by decide, by decide, by decide, by decide, by decide⟩

/-- Membership in the filter dropping connections containing a binding. -/
theorem mem_removeForPair {cur : List Conn} {kv : CEnt × String} {x : Conn} :
    x ∈ removeForPair cur kv ↔ x ∈ cur ∧ kv ∉ x := by
  simp [removeForPair]

/-- Membership after dropping, for every binding of one connection, the
connections containing that binding. -/
theorem mem_foldl_removeForPair {c : Conn} : ∀ {acc : List Conn} {x : Conn},
    x ∈ c.foldl removeForPair acc ↔ x ∈ acc ∧ ∀ kv ∈ c, kv ∉ x := by
  induction c with
  | nil => intro acc x; simp
  | cons kv rest ih =>
    intro acc x
    rw [List.foldl_cons, ih, mem_removeForPair]
    simp [List.forall_mem_cons, and_assoc]

/-- Membership in the conflict-removal pass: exactly the existing
connections sharing no binding with any incoming connection survive. -/
theorem mem_removeConflicts {batch : List Conn} : ∀ {cur : List Conn} {x : Conn},
    x ∈ removeConflicts cur batch ↔ x ∈ cur ∧ ∀ c ∈ batch, ∀ kv ∈ c, kv ∉ x := by
  induction batch with
  | nil => intro cur x; simp [removeConflicts]
  | cons c rest ih =>
    intro cur x
    have hstep : removeConflicts cur (c :: rest) =
        removeConflicts (c.foldl removeForPair cur) rest := rfl
    rw [hstep, ih, mem_foldl_removeForPair]
    simp [List.forall_mem_cons, and_assoc]

/-- Dropping bindings of one connection yields a sublist. -/
theorem foldl_removeForPair_sublist {c : Conn} : ∀ {acc : List Conn},
    (c.foldl removeForPair acc).Sublist acc := by
  induction c with
  | nil => intro acc; exact List.Sublist.refl _
  | cons kv rest ih =>
    intro acc
    rw [List.foldl_cons]
    exact ih.trans (List.filter_sublist acc)

/-- The conflict-removal pass yields a sublist of the existing
connections. -/
theorem removeConflicts_sublist {batch : List Conn} : ∀ {cur : List Conn},
    (removeConflicts cur batch).Sublist cur := by
  induction batch with
  | nil => intro cur; exact List.Sublist.refl _
  | cons c rest ih =>
    intro cur
    have hstep : removeConflicts cur (c :: rest) =
        removeConflicts (c.foldl removeForPair cur) rest := rfl
    rw [hstep]
    exact ih.trans foldl_removeForPair_sublist

/-- Provenance of the append pass: everything in the result was already
present or came from the batch. -/
theorem mem_addNew {batch : List Conn} : ∀ {cur : List Conn} {x : Conn},
    x ∈ addNew cur batch → x ∈ cur ∨ x ∈ batch := by
  induction batch with
  | nil => intro cur x h; exact Or.inl h
  | cons c rest ih =>
    intro cur x h
    rw [addNew] at h
    split at h
    · rcases ih h with h1 | h1
      · exact Or.inl h1
      · exact Or.inr (List.mem_cons_of_mem _ h1)
    · rcases ih h with h1 | h1
      · rcases List.mem_append.mp h1 with h2 | h2
        · exact Or.inl h2
        · exact Or.inr (List.mem_cons.mpr (Or.inl (List.mem_singleton.mp h2)))
      · exact Or.inr (List.mem_cons_of_mem _ h1)

/-- Dict equality between connections is reflexive. -/
theorem connEq_refl (c : Conn) : connEq c c = true :=
  decide_eq_true ⟨fun _ h => h, fun _ h => h⟩

/-- The append pass preserves the at-most-one-connection-per-binding
invariant, provided every incoming connection is dict-equal to anything
already present or incoming that it shares a binding with. -/
theorem addNew_inv {batch : List Conn} : ∀ {cur : List Conn},
    (∀ kv, pairCount kv cur ≤ 1) →
    (∀ c ∈ batch, ∀ x ∈ cur, (∃ kv, kv ∈ c ∧ kv ∈ x) → connEq c x = true) →
    (∀ c1 ∈ batch, ∀ c2 ∈ batch, (∃ kv, kv ∈ c1 ∧ kv ∈ c2) → connEq c1 c2 = true) →
    ∀ kv, pairCount kv (addNew cur batch) ≤ 1 := by
  induction batch with
  | nil => intro cur HP _ _ kv; exact HP kv
  | cons c rest ih =>
    intro cur HP HQ HB kv
    rw [addNew]
    split
    case isTrue hany =>
      exact ih HP
        (fun c2 hc2 x hx hsh => HQ c2 (List.mem_cons_of_mem _ hc2) x hx hsh)
        (fun c1 h1 c2 h2 hsh =>
          HB c1 (List.mem_cons_of_mem _ h1) c2 (List.mem_cons_of_mem _ h2) hsh)
        kv
    case isFalse hany =>
      have hnone : ∀ x ∈ cur, connEq c x = false := by
        intro x hx
        by_contra hcontra
        exact hany (List.any_eq_true.mpr
          ⟨x, hx, by revert hcontra; cases connEq c x <;> simp⟩)
      refine ih ?_ ?_ ?_ kv
      · intro kv2
        rw [pairCount, List.countP_append]
        by_cases hkc : kv2 ∈ c
        · have hz : cur.countP (fun x => decide (kv2 ∈ x)) = 0 := by
            rw [List.countP_eq_zero]
            intro x hx hdec
            have hmem : kv2 ∈ x := of_decide_eq_true hdec
            have := HQ c (List.mem_cons_self _ _) x hx ⟨kv2, hkc, hmem⟩
            rw [hnone x hx] at this
            exact Bool.false_ne_true this
          have h1 : List.countP (fun x => decide (kv2 ∈ x)) [c] = 1 := by
            simp [List.countP_cons, hkc]
          omega
        · have h1 : List.countP (fun x => decide (kv2 ∈ x)) [c] = 0 := by
            simp [List.countP_cons, hkc]
          have h2 : cur.countP (fun x => decide (kv2 ∈ x)) ≤ 1 := HP kv2
          omega
      · intro c2 hc2 x hx hsh
        rcases List.mem_append.mp hx with h1 | h1
        · exact HQ c2 (List.mem_cons_of_mem _ hc2) x h1 hsh
        · have hxc : x = c := List.mem_singleton.mp h1
          rw [hxc] at hsh ⊢
          exact HB c2 (List.mem_cons_of_mem _ hc2) c (List.mem_cons_self _ _) hsh
      · intro c1 h1 c2 h2 hsh
        exact HB c1 (List.mem_cons_of_mem _ h1) c2 (List.mem_cons_of_mem _ h2) hsh

/-- Claim C7 as amended: after a successful updateConnections call, each
(entity, port) binding appears in at most one connection, provided the
invariant held beforehand and no two incoming connections share a binding
without being dict-equal; moreover every surviving connection sharing a
binding with the batch is dict-equal to some incoming connection (the
pre-existing conflicting connections are retired). The batch proviso is
forced by the counterexample: two distinct incoming connections sharing a
binding are both appended. -/
theorem C7_pair_unique_amended (s : LabState) (batch : List Conn)
    (Hok : (updateConnections s batch).error = none)
    (HP : ∀ kv, pairCount kv s.connections ≤ 1)
    (HB : ∀ c1 ∈ batch, ∀ c2 ∈ batch, (∃ kv, kv ∈ c1 ∧ kv ∈ c2) →
            connEq c1 c2 = true) :
    (∀ kv, pairCount kv (updateConnections s batch).state.connections ≤ 1) ∧
    (∀ x ∈ (updateConnections s batch).state.connections,
       (∃ c ∈ batch, ∃ kv, kv ∈ c ∧ kv ∈ x) → ∃ c ∈ batch, connEq c x = true) := by
  cases hfi : firstInvalid batch with
  | some kv => simp [updateConnections, hfi] at Hok
  | none =>
    have hstate : (updateConnections s batch).state.connections =
        addNew (removeConflicts s.connections batch) batch := by
      simp [updateConnections, hfi]
    rw [hstate]
    constructor
    · refine addNew_inv ?_ ?_ HB
      · intro kv
        exact le_trans (List.Sublist.countP_le _ removeConflicts_sublist) (HP kv)
      · rintro c hc x hx ⟨kv, hkvc, hkvx⟩
        exact absurd hkvx ((mem_removeConflicts.mp hx).2 c hc kv hkvc)
    · rintro x hx ⟨c, hc, kv, hkvc, hkvx⟩
      rcases mem_addNew hx with h1 | h1
      · exact absurd hkvx ((mem_removeConflicts.mp h1).2 c hc kv hkvc)
      · exact ⟨x, h1, connEq_refl x⟩

/-- Witness for the amended C7: a singleton batch on the empty state
satisfies the provisos and the (A, p1) binding ends up in at most one
connection. -/
theorem C7_witness :
    pairCount (entA, "p1")
      ((updateConnections emptyLab [connAB]).state.connections) ≤ 1 :=
  (C7_pair_unique_amended emptyLab [connAB] (by decide)
      (fun _ => Nat.zero_le 1)
      (fun c1 h1 c2 h2 _ => by
        rw [List.mem_singleton] at h1 h2
        rw [h1, h2]
        exact connEq_refl _)).1
    (entA, "p1")

/-- The localhost scan ignores stretches without local hosts. -/
theorem scan_foldl_nonlocal {t : List Host} : ∀ {acc : Option String × List LogEvent},
    (∀ h ∈ t, h.isLocal = false) → t.foldl scanStep acc = acc := by
  induction t with
  | nil => intro acc _; rfl
  | cons h t ih =>
    intro acc hall
    rw [List.foldl_cons]
    have h1 : h.isLocal = false := hall h (List.mem_cons_self _ _)
    rw [scanStep, if_neg (by simp [h1])]
    exact ih fun x hx => hall x (List.mem_cons_of_mem _ hx)

/-- When the hosts list carries exactly one local host, the scan reports
that host's name, whatever the accumulator. -/
theorem scan_go {h0 : Host} : ∀ (hs : List Host) (acc : Option String × List LogEvent),
    hs.filter (fun h => h.isLocal) = [h0] →
    (hs.foldl scanStep acc).1 = some h0.name := by
  intro hs
  induction hs with
  | nil => intro acc hf; simp at hf
  | cons h t ih =>
    intro acc hf
    rw [List.foldl_cons]
    by_cases hl : h.isLocal = true
    · rw [List.filter_cons_of_pos (by simp [hl])] at hf
      have hh0 : h = h0 := (List.cons.injEq _ _ _ _).mp hf |>.1
      have ht : t.filter (fun h => h.isLocal) = [] :=
        (List.cons.injEq _ _ _ _).mp hf |>.2
      have hnone : ∀ x ∈ t, x.isLocal = false := by
        intro x hx
        have := List.filter_eq_nil_iff.mp ht x hx
        simpa using this
      rw [scanStep, if_pos (by simp [hl]), scan_foldl_nonlocal hnone, hh0]
    · have hl2 : h.isLocal = false := by
        revert hl
        cases h.isLocal <;> simp
      rw [List.filter_cons_of_neg (by simp [hl2])] at hf
      rw [scanStep, if_neg (by simp [hl2])]
      exact ih acc hf

/-- Claim C8: on a state whose hosts contain exactly one host marked
local, upserting a differently named incoming local host leaves the whole
state (hosts collection included) unchanged, and a localhost-clash warning
is emitted; no error channel exists on this path. -/
theorem C8_localhost_rejected (s : LabState) (h0 nh : Host)
    (hf : s.hosts.filter (fun h => h.isLocal) = [h0])
    (hl : nh.isLocal = true)
    (hn : nh.name ≠ h0.name) :
    (updateHost s [nh]).1 = s ∧
    LogEvent.warnLocalhostClash h0.name nh.name ∈ (updateHost s [nh]).2 := by
  have hscan : (scanLocal s.hosts).1 = some h0.name := scan_go s.hosts (none, []) hf
  have hstep : hostStep (s.hosts.map (·.name))
      (s.hosts, (scanLocal s.hosts).1, (scanLocal s.hosts).2) nh =
      (s.hosts, some h0.name,
       (scanLocal s.hosts).2 ++ [.warnLocalhostClash h0.name nh.name]) := by
    rw [hostStep, hscan]
    simp only []
    rw [if_pos (by simp [hl, hn])]
  have hrun : updateHost s [nh] =
      ({ s with hosts := s.hosts },
       (scanLocal s.hosts).2 ++ [.warnLocalhostClash h0.name nh.name]) := by
    rw [updateHost]
    simp only [List.foldl_cons, List.foldl_nil, hstep]
    rw [if_neg (by simp)]
  rw [hrun]
  constructor
  · rfl
  · simp

/-- Witness for C8: upserting the local host other into a lab whose only
host is the local host loc changes nothing and logs the clash warning. -/
theorem C8_witness :
    (updateHost lab8 [host8]).1 = lab8 ∧
    LogEvent.warnLocalhostClash "loc" "other" ∈ (updateHost lab8 [host8]).2 :=
  C8_localhost_rejected lab8 { name := "loc", isLocal := true } host8
    (by decide) rfl (by decide)

end Lightlab
